import Mathlib

/-!
Verification of the web3-verify core: a shallow embedding of the RPC endpoint
pool (`rpc-pool.ts`, `RPCPool`) and of the transaction decoding/validation
pipeline (`ether-service.ts`, `EthersService`), with theorems checking the
natural-language specification against the code.

Modelling conventions:
* JavaScript objects holding mutable endpoint state become a Lean structure
  `RPCEndpoint`; the pool's `this.endpoints` array becomes a `List RPCEndpoint`
  threaded explicitly through each operation.
* The `provider` field of an endpoint (an `ethers.JsonRpcProvider`) carries no
  state relevant to the claims; endpoint object identity is modelled by the
  index of the endpoint in the pool's list.
* `Date.now()` readings are passed in as explicit natural-number arguments.
* Asynchronous operations that can fail become `Except String` values; the
  caller-supplied operation of `executeWithRetry` becomes a function from the
  endpoint index to `Except String T` (each endpoint is attempted at most once
  per call, so one result per endpoint is fully general).
* JavaScript `Array.prototype.sort` with comparator `(a, b) => a.latency -
  b.latency` is a stable ascending sort by latency; it is modelled by
  `List.insertionSort` with the non-strict comparison, which computes exactly
  the stable ascending sort.
-/

namespace Web3Verify

/-- Endpoint state record `RPCEndpoint` from `rpc-pool.ts` (without the `provider` handle, which is
identified with the endpoint's position in the pool list). -/
structure RPCEndpoint where
  url : String
  isHealthy : Bool
  latency : Nat
  failureCount : Nat
  lastChecked : Nat
deriving Repr, DecidableEq

/-- Threshold `RPCPool.maxFailures`, the hard-coded consecutive-failure threshold. -/
def maxFailures : Nat := 3

/-- One freshly initialized endpoint, as built in
`RPCPool.initializeEndpoints`: healthy, zero latency, zero failures. -/
def mkEndpoint (url : String) (now : Nat) : RPCEndpoint :=
  { url := url, isHealthy := true, latency := 0, failureCount := 0, lastChecked := now }

/-- Constructor helper `RPCPool.initializeEndpoints`: maps each configured URL to a fresh
endpoint record, in order, with no deduplication. -/
def initializeEndpoints (rpcUrls : List String) (now : Nat) : List RPCEndpoint :=
  rpcUrls.map (fun url => mkEndpoint url now)

/-- The constructor argument list built in the `EthersService` constructor
(`ether-service.ts` lines 11-18): note `RPC_URL4` appears twice. -/
def ethersServiceUrls (u1 u2 u3 u4 u5 : String) : List String :=
  [u1, u2, u3, u4, u4, u5]

/-- Success branch of `RPCPool.checkEndpointHealth`: record measured latency,
mark healthy, clear the failure count, stamp the check time. -/
def healthSuccess (e : RPCEndpoint) (measuredLatency now : Nat) : RPCEndpoint :=
  { e with latency := measuredLatency, isHealthy := true, failureCount := 0,
           lastChecked := now }

/-- Failure branch of `RPCPool.checkEndpointHealth`: bump the failure count,
recompute `isHealthy` as `failureCount < maxFailures`, stamp the check time. -/
def healthFailure (e : RPCEndpoint) (now : Nat) : RPCEndpoint :=
  { e with failureCount := e.failureCount + 1,
           isHealthy := decide (e.failureCount + 1 < maxFailures),
           lastChecked := now }

/-- Success branch inside `RPCPool.executeWithRetry`: clear the failure count
and mark healthy (the check time is not touched there). -/
def markSuccess (e : RPCEndpoint) : RPCEndpoint :=
  { e with failureCount := 0, isHealthy := true }

/-- Failure branch inside `RPCPool.executeWithRetry`: bump the failure count
and recompute `isHealthy` as `failureCount < maxFailures`. -/
def markFailure (e : RPCEndpoint) : RPCEndpoint :=
  { e with failureCount := e.failureCount + 1,
           isHealthy := decide (e.failureCount + 1 < maxFailures) }

/-- The reset applied to every endpoint by `RPCPool.getBestProvider` when no
endpoint is healthy: clear the failure count and force healthy. -/
def resetEndpoint (e : RPCEndpoint) : RPCEndpoint :=
  { e with failureCount := 0, isHealthy := true }

/-- The comparison used by `getHealthyEndpoints`'s sort:
`(a, b) => a.latency - b.latency`, i.e. ascending latency. The pairs carry the
index of the endpoint in the pool list (object identity). -/
def latLE (a b : Nat × RPCEndpoint) : Prop := a.2.latency ≤ b.2.latency

instance : DecidableRel latLE := fun a b => Nat.decLe a.2.latency b.2.latency

instance : IsTotal (Nat × RPCEndpoint) latLE := ⟨fun a b => Nat.le_total a.2.latency b.2.latency⟩

instance : IsTrans (Nat × RPCEndpoint) latLE := ⟨fun _ _ _ => Nat.le_trans⟩

/-- Selection helper `RPCPool.getHealthyEndpoints`: filter the healthy endpoints and sort them
ascending by latency (stable, as JavaScript array sort is). Each entry is
paired with its index in the pool list. -/
def getHealthyEndpointsIdx (es : List RPCEndpoint) : List (Nat × RPCEndpoint) :=
  List.insertionSort latLE (es.enum.filter (fun p => p.2.isHealthy))

/-- Operation `RPCPool.getBestProvider`: if some endpoint is healthy, the healthy
endpoint with lowest latency; otherwise reset every endpoint (failure count 0,
healthy) and take the first endpoint of the pool. Returns the chosen endpoint
(`none` models the crash on an empty pool) together with the updated pool. -/
def getBestProvider (es : List RPCEndpoint) : Option RPCEndpoint × List RPCEndpoint :=
  let healthy := getHealthyEndpointsIdx es
  if healthy.length = 0 then
    let reset := es.map resetEndpoint
    (reset.head?, reset)
  else
    ((healthy.head?).map Prod.snd, es)

/-- The number of elements of the JavaScript slice `arr.slice(0, e)` of an
array of length `len`, for a possibly negative `e`. -/
def jsSliceTo (len : Nat) (e : Int) : Nat :=
  if e < 0 then len - e.natAbs else min e.toNat len

/-- Candidate endpoint indices chosen by `RPCPool.executeWithRetry`: all
healthy endpoints sorted ascending by latency if any, otherwise the first
`maxRetries` configured endpoints (`this.endpoints.slice(0, maxRetries)`). -/
def candidatesIdx (es : List RPCEndpoint) (maxRetries : Int) : List Nat :=
  let healthy := getHealthyEndpointsIdx es
  if healthy.length > 0 then healthy.map Prod.fst
  else (List.range es.length).take (jsSliceTo es.length maxRetries)

/-- The loop bound `Math.min(candidates.length, maxRetries)` of
`executeWithRetry`, as a number of iterations (zero when `maxRetries ≤ 0`). -/
def numAttempts (candLen : Nat) (maxRetries : Int) : Nat :=
  if maxRetries ≤ 0 then 0 else min candLen maxRetries.toNat

/-- Replace the element at position `i` (mutation of the endpoint object the
candidate entry points at); out-of-range positions leave the list unchanged. -/
def updIdx : List RPCEndpoint → Nat → (RPCEndpoint → RPCEndpoint) → List RPCEndpoint
  | [], _, _ => []
  | e :: rest, 0, f => f e :: rest
  | e :: rest, i + 1, f => e :: updIdx rest i f

/-- Outcome of one `executeWithRetry` call: the returned/thrown value, the
endpoint states after the call, and the indices attempted in order. -/
structure RetryOutcome (T : Type) where
  result : Except String T
  endpoints : List RPCEndpoint
  attempted : List Nat
deriving Repr

/-- The fallback `lastError?.message || "Unknown error"`: a missing last
error and an empty (falsy) message both yield "Unknown error". -/
def lastErrorMessage : Option String → String
  | none => "Unknown error"
  | some m => if m = "" then "Unknown error" else m

/-- The retry loop of `RPCPool.executeWithRetry` over the (already truncated)
candidate list: on success clear the endpoint's failures, mark it healthy and
return immediately; on failure bump its failures, recompute health, remember
the error, move on; when candidates run out, throw the aggregated error
carrying the last failure's message (or "Unknown error"). -/
def attemptLoop (fn : Nat → Except String T) :
    List Nat → List RPCEndpoint → Option String → RetryOutcome T
  | [], es, lastError =>
    ⟨Except.error ("All RPC attempts failed. Last error: " ++ lastErrorMessage lastError),
      es, []⟩
  | i :: rest, es, _ =>
    match fn i with
    | Except.ok v => ⟨Except.ok v, updIdx es i markSuccess, [i]⟩
    | Except.error msg =>
      let r := attemptLoop fn rest (updIdx es i markFailure) (some msg)
      ⟨r.result, r.endpoints, i :: r.attempted⟩

/-- Operation `RPCPool.executeWithRetry`: select the candidates, then run the retry loop
for at most `Math.min(candidates.length, maxRetries)` attempts. -/
def executeWithRetry (fn : Nat → Except String T) (maxRetries : Int)
    (es : List RPCEndpoint) : RetryOutcome T :=
  let candidates := candidatesIdx es maxRetries
  attemptLoop fn (candidates.take (numAttempts candidates.length maxRetries)) es none

/-- Value of one hexadecimal digit character. -/
def hexDigitVal (c : Char) : Option Nat :=
  if ('0' ≤ c ∧ c ≤ '9') then some (c.toNat - Char.toNat '0')
  else if ('a' ≤ c ∧ c ≤ 'f') then some (c.toNat - Char.toNat 'a' + 10)
  else if ('A' ≤ c ∧ c ≤ 'F') then some (c.toNat - Char.toNat 'A' + 10)
  else none

/-- Whether a character is a hexadecimal digit. -/
def isHexChar (c : Char) : Bool := (hexDigitVal c).isSome

/-- The JavaScript `toLowerCase()` call on an (ASCII) string: lower-case
every character. Stated over the character list so that it evaluates inside
the kernel. -/
def jsToLower (s : String) : String :=
  String.mk (s.data.map Char.toLower)

/-- The JavaScript `slice(n)` of an ASCII string (each character is one
UTF-16 unit), stated over the character list so that it evaluates inside the
kernel. -/
def strDrop (s : String) (n : Nat) : String := String.mk (s.data.drop n)

/-- The JavaScript `.length` of an ASCII string. -/
def strLen (s : String) : Nat := s.data.length

/-- Prefix test on ASCII strings (kernel-evaluable `startsWith`). -/
def strStartsWith (s pre : String) : Bool := pre.data.isPrefixOf s.data

/-- Big-endian value of a hex-digit character list (`some 0` when empty;
callers check non-emptiness separately). -/
def hexToNat? (l : List Char) : Option Nat :=
  l.foldl (fun acc c => acc.bind (fun n => (hexDigitVal c).map (fun d => n * 16 + d)))
    (some 0)

/-- Decimal numeral value of a character list (the `BigInt` decimal case). -/
def decToNat? (l : List Char) : Option Nat :=
  if l.all Char.isDigit then
    some (l.foldl (fun n c => n * 10 + (c.toNat - 48)) 0)
  else none

/-- The JavaScript `BigInt(string)` conversion used on `log.data`, for the
nonnegative inputs occurring here: the empty string is 0, a string with a
hexadecimal prefix must carry at least one hex digit, anything else must be a
plain decimal numeral; otherwise the conversion throws (`none`). Whitespace
trimming and the binary/octal prefixes are outside the modelled inputs. -/
def jsBigIntOfString (s : String) : Option Nat :=
  if s = "" then some 0
  else if strStartsWith s "0x" || strStartsWith s "0X" then
    (if strDrop s 2 = "" then none else hexToNat? (strDrop s 2).data)
  else decToNat? s.data

/-- The `ethers.getAddress` call, modelled on its domain of well-formed
lowercase inputs: accepts a `0x`-prefixed 40-hex-digit string, normalized to
lowercase, and throws (`none`) otherwise. (For mixed-case input the real
function additionally verifies the EIP-55 checksum and returns the
checksummed form; all address material in this development is lowercase,
where the real function accepts and returns the input unchanged.) -/
def getAddress? (s : String) : Option String :=
  if strStartsWith s "0x" ∧ strLen (strDrop s 2) = 40 ∧ (strDrop s 2).data.all isHexChar
  then some (jsToLower s)
  else none

/-- A receipt log entry, with the fields `parseTransferLog` reads. -/
structure Log where
  topics : List String
  data : String
deriving Repr, DecidableEq

/-- The fixed transfer-event signature hash from `ether-service.ts`. -/
def TRANSFER_EVENT_SIG_HASH : String :=
  "0xddf252ad1be2c89b69c2b068fc378daa952ba7f163c4a11628f55a4df523b3ef"

/-- A decoded transfer event (`from`/`to` renamed, `from` is a Lean keyword). -/
structure TransferEvent where
  fromAddr : String
  toAddr : String
  value : Nat
deriving Repr, DecidableEq

/-- Decoder `EthersService.parseTransferLog`: `null` when the primary topic is not the
transfer signature; otherwise recover the addresses from the low 20 bytes of
topics 1 and 2 (`slice(26)` of the 66-character topic) and the magnitude from
`BigInt(log.data)`; any failure is caught and also yields `null`. -/
def parseTransferLog (log : Log) : Option TransferEvent :=
  if log.topics.head? ≠ some TRANSFER_EVENT_SIG_HASH then none
  else
    match log.topics[1]?, log.topics[2]? with
    | some t1, some t2 =>
      match getAddress? ("0x" ++ strDrop t1 26), getAddress? ("0x" ++ strDrop t2 26),
          jsBigIntOfString log.data with
      | some a, some b, some v => some ⟨a, b, v⟩
      | _, _, _ => none
    | _, _ => none

/-- The receipt-log scan in `getDetailsByHash`:
`receipt.logs.find((log) => log.topics[0] === TRANSFER_EVENT_SIG_HASH)`. -/
def findTransferLog (logs : List Log) : Option Log :=
  logs.find? (fun l => l.topics.head? == some TRANSFER_EVENT_SIG_HASH)

/-- The sender/receiver override source in `getDetailsByHash`: parse the first
signature-matching log (if any). -/
def transferOverride (logs : List Log) : Option TransferEvent :=
  (findTransferLog logs).bind parseTransferLog

/-- Stated from the spec's words, for comparison with `transferOverride`:
"scan the receipt's logs for the first decodable transfer event", i.e. the
first log that both matches the signature and decodes successfully. -/
def specFirstDecodableTransfer (logs : List Log) : Option TransferEvent :=
  logs.findSome? parseTransferLog

/-- Round a rational to the nearest integer, ties to even (the IEEE 754
default rounding direction). -/
def rnte (q : ℚ) : ℤ :=
  if q - ⌊q⌋ < 1 / 2 then ⌊q⌋
  else if 1 / 2 < q - ⌊q⌋ then ⌊q⌋ + 1
  else if ⌊q⌋ % 2 = 0 then ⌊q⌋ else ⌊q⌋ + 1

/-- The value of a rational rounded to IEEE 754 binary64 (a 53-bit
significand), in the normal range: round the significand `q / 2 ^ e` to the
nearest integer, ties to even, where `e` places the significand in
`[2^52, 2^53)`. Overflow and subnormals lie outside the values reached in
this development. -/
def roundDouble (q : ℚ) : ℚ :=
  if q = 0 then 0
  else ((rnte (q / 2 ^ (Int.log 2 |q| - 52)) : ℚ)) * 2 ^ (Int.log 2 |q| - 52)

/-- The value of the JavaScript `Number(raw)` conversion of a nonnegative
`BigInt`: the nearest binary64 value. -/
def jsNumber (n : Nat) : ℚ := roundDouble (n : ℚ)

/-- Binary64 division: divide exactly, then round to the nearest binary64. -/
def jsDivD (a b : ℚ) : ℚ := roundDouble (a / b)

/-- JavaScript truthiness of an optional string (`undefined` and `""` are
falsy). -/
def truthyStr : Option String → Bool
  | none => false
  | some s => s != ""

/-- JavaScript truthiness of an optional number (`undefined` and `0` are
falsy). -/
def truthyNat : Option Nat → Bool
  | none => false
  | some n => n != 0

/-- The amount computation of `getDetailsByHash` for a decoded transfer event
(`ether-service.ts` lines 165-174): when `usdtValidation.symbol` and
`usdtValidation.decimals` are both truthy, the reported value is
`Number(raw) / Number(10n ** BigInt(decimals))` (binary64 arithmetic);
otherwise the raw magnitude is reported unscaled. The reported string is the
shortest decimal representation; the model keeps the numeric value. -/
def computeAmount (symbol : Option String) (decimals : Option Nat) (raw : Nat) : ℚ :=
  if truthyStr symbol && truthyNat decimals then
    jsDivD (jsNumber raw) (jsNumber (10 ^ decimals.getD 0))
  else (raw : ℚ)

/-- The expected token address constant of `EthersService`. -/
def USDT_CONTRACT : String := "0x55d398326f99059ff775485246999027b3197955"

/-- Predicate `EthersService.isUSDTContract`: case-insensitive address comparison. -/
def isUSDTContract (address : String) : Bool :=
  jsToLower address == jsToLower USDT_CONTRACT

/-- Result record of `validateUSDTTransaction`. -/
structure USDTValidation where
  isUSDT : Bool
  tokenMismatch : Bool
  symbol : Option String
  decimals : Option Nat
deriving Repr, DecidableEq

/-- Validation `EthersService.validateUSDTTransaction`: `tokenDetails` is the result of
`getTokenDetails` (`none` models its caught metadata-fetch failure). On
missing metadata report not-USDT with a mismatch; otherwise compare the
address against the expected token. -/
def validateUSDTTransaction (contractAddress : String)
    (tokenDetails : Option (String × Nat)) : USDTValidation :=
  let isExpectedUSDT := isUSDTContract contractAddress
  match tokenDetails with
  | none => ⟨false, true, none, none⟩
  | some (symbol, decimals) => ⟨isExpectedUSDT, !isExpectedUSDT, some symbol, some decimals⟩

/-- Result record of `validateContractIsUSDT`. -/
structure ContractValidation where
  isValid : Bool
  isUSDT : Bool
  tokenMismatch : Bool
  details : Option (String × Nat)
deriving Repr, DecidableEq

/-- Validation `EthersService.validateContractIsUSDT`: `isValid` is the negation of
`tokenMismatch`; `details` is populated only when symbol and decimals are
both truthy. -/
def validateContractIsUSDT (contractAddress : String)
    (tokenDetails : Option (String × Nat)) : ContractValidation :=
  let validation := validateUSDTTransaction contractAddress tokenDetails
  { isValid := !validation.tokenMismatch
    isUSDT := validation.isUSDT
    tokenMismatch := validation.tokenMismatch
    details :=
      match validation.symbol, validation.decimals with
      | some s, some d => if s ≠ "" ∧ d ≠ 0 then some (s, d) else none
      | _, _ => none }

/-- The fields of an `ethers` transaction read by `getDetailsByHash`
(`from`/`to`/`data` renamed to avoid Lean keywords). -/
structure TxRecord where
  toAddr : Option String
  fromAddr : String
  dataField : String
  value : Nat
  gasPrice : Option Nat
deriving Repr, DecidableEq

/-- The fields of a transaction receipt read by `getDetailsByHash`. -/
structure ReceiptRecord where
  blockNumber : Nat
  gasUsed : Nat
  status : Option Nat
  logs : List Log
deriving Repr, DecidableEq

/-- The field of a block read by `getDetailsByHash`. -/
structure BlockRecord where
  timestamp : Nat
deriving Repr, DecidableEq

/-- The `TransactionDetails` result entity (`types.ts`). `datetime` keeps the
block timestamp the ISO string is derived from; `amount` and
`transactionFee` keep the numeric values their decimal strings denote. -/
structure TransactionDetails where
  contract : Option String
  toWalletAddress : String
  fromWalletAddress : String
  amount : ℚ
  datetime : Nat
  blockNumber : Nat
  gasUsed : Nat
  gasPrice : Nat
  transactionFee : ℚ
  status : Bool
  tokenSymbol : Option String
  tokenDecimals : Option Nat
  isUSDT : Bool
  tokenMismatch : Bool
  expectedContract : String
deriving Repr, DecidableEq

/-- The remote data one `getDetailsByHash` call consumes: the joint
transaction/receipt fetch, the block fetch (each `Except.error` when all RPC
attempts failed, with `none` components for `null` responses), and the
`getTokenDetails` result for the destination contract (`none` models its
caught failure). -/
structure FetchEnv where
  txAndReceipt : Except String (Option TxRecord × Option ReceiptRecord)
  block : Except String (Option BlockRecord)
  tokenDetails : Option (String × Nat)

/-- The catch-all wrapper of `getDetailsByHash`. -/
def wrapDetailsError (msg : String) : String :=
  "Failed to fetch transaction details: " ++ msg

/-- The `else` branch of `getDetailsByHash` (native BNB transfer): amount is
the native value formatted in ether units (exact), symbol fixed to BNB,
mismatch forced. -/
def nativeBranch (base : TransactionDetails) (tx : TxRecord) : TransactionDetails :=
  { base with
    amount := (tx.value : ℚ) / 10 ^ 18
    tokenSymbol := some "BNB"
    tokenDecimals := some 18
    isUSDT := false
    tokenMismatch := true }

/-- The contract-interaction branch of `getDetailsByHash`: validate the
destination as the expected token, find the first signature-matching log,
and on a successful parse override sender/receiver and compute the amount. -/
def contractBranch (base : TransactionDetails) (dst : String)
    (receipt : ReceiptRecord) (tokenDetails : Option (String × Nat)) :
    TransactionDetails :=
  let v := validateUSDTTransaction dst tokenDetails
  let base1 := { base with contract := some dst, isUSDT := v.isUSDT,
                           tokenMismatch := v.tokenMismatch }
  match findTransferLog receipt.logs with
  | none => base1
  | some lg =>
    match parseTransferLog lg with
    | none => base1
    | some ev =>
      let base2 := { base1 with fromWalletAddress := ev.fromAddr,
                                toWalletAddress := ev.toAddr }
      let base3 :=
        if truthyStr v.symbol && truthyNat v.decimals then
          { base2 with tokenSymbol := v.symbol, tokenDecimals := v.decimals }
        else base2
      { base3 with amount := computeAmount v.symbol v.decimals ev.value }

/-- Pipeline `EthersService.getDetailsByHash` over a `FetchEnv`: every thrown error is
re-thrown wrapped with context; a missing transaction or receipt and a
missing block are thrown (then wrapped); otherwise a fully populated
`TransactionDetails` is produced. The declared TypeScript return type allows
`null`, modelled by the inner `Option`. -/
def getDetailsByHash (env : FetchEnv) : Except String (Option TransactionDetails) :=
  match env.txAndReceipt with
  | Except.error e => Except.error (wrapDetailsError e)
  | Except.ok (tx?, receipt?) =>
    match tx?, receipt? with
    | some tx, some receipt =>
      match env.block with
      | Except.error e => Except.error (wrapDetailsError e)
      | Except.ok none => Except.error (wrapDetailsError "block timestamp could not be found")
      | Except.ok (some block) =>
        let gasUsed := receipt.gasUsed
        let gasPrice := tx.gasPrice.getD 0
        let base : TransactionDetails :=
          { contract := none
            toWalletAddress := tx.toAddr.getD ""
            fromWalletAddress := tx.fromAddr
            amount := 0
            datetime := block.timestamp
            blockNumber := receipt.blockNumber
            gasUsed := gasUsed
            gasPrice := gasPrice
            transactionFee := ((gasUsed * gasPrice : Nat) : ℚ) / 10 ^ 18
            status := receipt.status == some 1
            tokenSymbol := none
            tokenDecimals := none
            isUSDT := false
            tokenMismatch := false
            expectedContract := USDT_CONTRACT }
        let result :=
          match tx.toAddr with
          | some dst =>
            if dst ≠ "" ∧ tx.dataField ≠ "0x" then
              contractBranch base dst receipt env.tokenDetails
            else nativeBranch base tx
          | none => nativeBranch base tx
        Except.ok (some result)
    | _, _ => Except.error (wrapDetailsError "Transaction not found")

/-- Pool fixture for the latency example of the spec: five healthy endpoints
with latencies 80, 10, 40, 20, 60 in configuration order. -/
def exEndpoints : List RPCEndpoint :=
  [⟨"rpc0", true, 80, 0, 0⟩, ⟨"rpc1", true, 10, 0, 0⟩, ⟨"rpc2", true, 40, 0, 0⟩,
   ⟨"rpc3", true, 20, 0, 0⟩, ⟨"rpc4", true, 60, 0, 0⟩]

/-- Operation fixture: fails on every endpoint except index 2 (latency 40),
so the first two latency-ordered attempts fail and the third succeeds. -/
def exFn : Nat → Except String Nat :=
  fun i => if i = 2 then Except.ok 42 else Except.error "fail"

/-- A sample well-formed transfer topic holding address
`0xaaaaaaaaaaaaaaaaaaaaaaaaaaaaaaaaaaaaaaaa` right-aligned in 32 bytes. -/
def exTopicA : String :=
  "0x000000000000000000000000aaaaaaaaaaaaaaaaaaaaaaaaaaaaaaaaaaaaaaaa"

/-- A sample well-formed transfer topic holding address
`0xbbbbbbbbbbbbbbbbbbbbbbbbbbbbbbbbbbbbbbbb` right-aligned in 32 bytes. -/
def exTopicB : String :=
  "0x000000000000000000000000bbbbbbbbbbbbbbbbbbbbbbbbbbbbbbbbbbbbbbbb"

/-- A decodable transfer log: signature topic, two address topics, and data
`0x0de0b6b3a7640000` (10^18). -/
def exLogGood : Log :=
  ⟨[TRANSFER_EVENT_SIG_HASH, exTopicA, exTopicB], "0x0de0b6b3a7640000"⟩

/-- A log that matches the transfer signature but is malformed: only one
topic, so the address recovery throws. -/
def exLogMalformed : Log := ⟨[TRANSFER_EVENT_SIG_HASH], "0x0"⟩

/-- A log whose primary topic is not the transfer signature. -/
def exLogNoMatch : Log := ⟨["0xdead"], "0x0"⟩

/-- A log that matches the transfer signature with a well-formed topic count
but unparseable data: `BigInt("0x")` throws. -/
def exLogBadData : Log := ⟨[TRANSFER_EVENT_SIG_HASH, exTopicA, exTopicB], "0x"⟩

/-- The per-endpoint invariant of the spec:
`healthy == (consecutiveFailures < maxFailures)`. -/
def endpointInv (e : RPCEndpoint) : Prop :=
  e.isHealthy = decide (e.failureCount < maxFailures)

section Lemmas

lemma updIdx_length (es : List RPCEndpoint) (i : Nat) (f : RPCEndpoint → RPCEndpoint) :
    (updIdx es i f).length = es.length := by
  induction es generalizing i with
  | nil => rfl
  | cons e rest ih =>
    cases i with
    | zero => rfl
    | succ j => simpa [updIdx] using ih j

lemma getElem?_updIdx_self (es : List RPCEndpoint) (i : Nat) (f : RPCEndpoint → RPCEndpoint) :
    (updIdx es i f)[i]? = es[i]?.map f := by
  induction es generalizing i with
  | nil => simp [updIdx]
  | cons e rest ih =>
    cases i with
    | zero => simp [updIdx]
    | succ j => simpa [updIdx] using ih j

lemma mem_updIdx {x : RPCEndpoint} (es : List RPCEndpoint) (i : Nat)
    (f : RPCEndpoint → RPCEndpoint) (hx : x ∈ updIdx es i f) :
    x ∈ es ∨ ∃ e ∈ es, x = f e := by
  induction es generalizing i with
  | nil => simp [updIdx] at hx
  | cons e rest ih =>
    cases i with
    | zero =>
      rcases List.mem_cons.mp hx with h | h
      · exact Or.inr ⟨e, List.mem_cons_self e rest, h⟩
      · exact Or.inl (List.mem_cons_of_mem e h)
    | succ j =>
      rcases List.mem_cons.mp hx with h | h
      · exact Or.inl (h ▸ List.mem_cons_self e rest)
      · rcases ih j h with h2 | ⟨e2, he2, hx2⟩
        · exact Or.inl (List.mem_cons_of_mem e h2)
        · exact Or.inr ⟨e2, List.mem_cons_of_mem e he2, hx2⟩

lemma attemptLoop_attempted_prefix {T : Type} (fn : Nat → Except String T) :
    ∀ (l : List Nat) (es : List RPCEndpoint) (err : Option String),
      (attemptLoop fn l es err).attempted <+: l := by
  intro l
  induction l with
  | nil => intro es err; simp [attemptLoop]
  | cons i rest ih =>
    intro es err
    unfold attemptLoop
    cases fn i with
    | ok v =>
      show [i] <+: i :: rest
      exact ⟨rest, rfl⟩
    | error msg => simpa using ih (updIdx es i markFailure) (some msg)

lemma attemptLoop_endpoints_length {T : Type} (fn : Nat → Except String T) :
    ∀ (l : List Nat) (es : List RPCEndpoint) (err : Option String),
      (attemptLoop fn l es err).endpoints.length = es.length := by
  intro l
  induction l with
  | nil => intro es err; simp [attemptLoop]
  | cons i rest ih =>
    intro es err
    unfold attemptLoop
    cases fn i with
    | ok v => simp [updIdx_length]
    | error msg => simp [ih (updIdx es i markFailure) (some msg), updIdx_length]

lemma attemptLoop_ok_spec {T : Type} (fn : Nat → Except String T) :
    ∀ (l : List Nat) (es : List RPCEndpoint) (err : Option String) (v : T),
      (∀ j ∈ l, j < es.length) →
      (attemptLoop fn l es err).result = Except.ok v →
      ∃ pre i, (attemptLoop fn l es err).attempted = pre ++ [i] ∧
        fn i = Except.ok v ∧ (∀ j ∈ pre, ∃ m, fn j = Except.error m) ∧
        ∃ e, (attemptLoop fn l es err).endpoints[i]? = some e ∧
          e.failureCount = 0 ∧ e.isHealthy = true := by
  intro l
  induction l with
  | nil => intro es err v _ hres; simp [attemptLoop] at hres
  | cons i rest ih =>
    intro es err v hbound hres
    have hi : i < es.length := hbound i (List.mem_cons_self i rest)
    unfold attemptLoop at hres ⊢
    cases hfn : fn i with
    | ok w =>
      rw [hfn] at hres
      have hwv : w = v := Except.ok.inj hres
      subst hwv
      refine ⟨[], i, by simp, hfn, by simp, ?_⟩
      have he : es[i]? = some es[i] := List.getElem?_eq_getElem hi
      rw [getElem?_updIdx_self, he]
      exact ⟨markSuccess es[i], rfl, rfl, rfl⟩
    | error msg =>
      rw [hfn] at hres
      simp only at hres
      have hbound2 : ∀ j ∈ rest, j < (updIdx es i markFailure).length := by
        intro j hj; rw [updIdx_length]; exact hbound j (List.mem_cons_of_mem i hj)
      obtain ⟨pre, i2, hatt, hok, hpre, e2, he2, hfc, hh⟩ :=
        ih (updIdx es i markFailure) (some msg) v hbound2 hres
      refine ⟨i :: pre, i2, by simp [hatt], hok, ?_, e2, he2, hfc, hh⟩
      intro j hj
      rcases List.mem_cons.mp hj with rfl | hj2
      · exact ⟨msg, hfn⟩
      · exact hpre j hj2

end Lemmas

/-- C10: when the pool's endpoint list is empty, or `maxRetries` is not
positive, `executeWithRetry` performs zero attempts — the operation is never
invoked, no endpoint state changes — and rejects with
"All RPC attempts failed. Last error: Unknown error". -/
theorem executeWithRetry_empty_pool {T : Type} (fn : Nat → Except String T)
    (maxRetries : Int) (es : List RPCEndpoint)
    (h : es = [] ∨ maxRetries ≤ 0) :
    executeWithRetry fn maxRetries es =
      ⟨Except.error "All RPC attempts failed. Last error: Unknown error", es, []⟩ := by
  have hzero : (candidatesIdx es maxRetries).take
      (numAttempts (candidatesIdx es maxRetries).length maxRetries) = [] := by
    rcases h with rfl | hm
    · have : candidatesIdx [] maxRetries = [] := by
        simp [candidatesIdx, getHealthyEndpointsIdx]
      simp [this]
    · simp [numAttempts, hm]
  simp only [executeWithRetry]
  rw [hzero]
  rfl

/-- C10 witness: on the empty pool with the default three retries, a trivially
succeeding operation is still never attempted and the aggregated error with
"Unknown error" is thrown. -/
theorem executeWithRetry_empty_pool_witness :
    executeWithRetry (fun _ => Except.ok (0 : Nat)) 3 [] =
      ⟨Except.error "All RPC attempts failed. Last error: Unknown error", [], []⟩ :=
  executeWithRetry_empty_pool (fun _ => Except.ok (0 : Nat)) 3 [] (Or.inl rfl)

/-- C9: `getDetailsByHash` never fulfills with `null`: for every fetch
environment it either throws a wrapped error ("Failed to fetch transaction
details: ...") or returns a populated `TransactionDetails` record, so a
caller's null-check branch on its result is unreachable. -/
theorem getDetailsByHash_never_null (env : FetchEnv) :
    (∃ msg, getDetailsByHash env = Except.error (wrapDetailsError msg)) ∨
    (∃ d, getDetailsByHash env = Except.ok (some d)) := by
  obtain ⟨txr, blk, td⟩ := env
  unfold getDetailsByHash
  cases txr with
  | error e => exact Or.inl ⟨e, rfl⟩
  | ok p =>
    obtain ⟨tx?, receipt?⟩ := p
    cases tx? with
    | none => exact Or.inl ⟨"Transaction not found", rfl⟩
    | some tx =>
      cases receipt? with
      | none => exact Or.inl ⟨"Transaction not found", rfl⟩
      | some receipt =>
        cases blk with
        | error e => exact Or.inl ⟨e, rfl⟩
        | ok b =>
          cases b with
          | none => exact Or.inl ⟨"block timestamp could not be found", rfl⟩
          | some block => exact Or.inr ⟨_, rfl⟩

/-- C7: the pool does not deduplicate: constructed from the `EthersService`
URL list (in which the fourth URL appears twice), the endpoint collection
contains that address twice — the repeated address does count as extra
capacity, contradicting the claim. -/
theorem initializeEndpoints_keeps_duplicate :
    ((initializeEndpoints (ethersServiceUrls "u1" "u2" "u3" "u4" "u5") 0).map
        RPCEndpoint.url).count "u4" = 2 ∧
    (initializeEndpoints (ethersServiceUrls "u1" "u2" "u3" "u4" "u5") 0).length = 6 := by
  constructor <;> rfl

/-- C8: `validateContractIsUSDT` never propagates an internal error: with
resolvable metadata it reports valid exactly on the expected token's own
address (case-insensitively) and invalid with a mismatch on any other
address, and on metadata-fetch failure it reports invalid with a mismatch
instead of raising. -/
theorem validateContractIsUSDT_spec (address : String) (metadata : String × Nat) :
    (jsToLower address = jsToLower USDT_CONTRACT →
      (validateContractIsUSDT address (some metadata)).isValid = true ∧
      (validateContractIsUSDT address (some metadata)).tokenMismatch = false) ∧
    (jsToLower address ≠ jsToLower USDT_CONTRACT →
      (validateContractIsUSDT address (some metadata)).isValid = false ∧
      (validateContractIsUSDT address (some metadata)).tokenMismatch = true) ∧
    ((validateContractIsUSDT address none).isValid = false ∧
      (validateContractIsUSDT address none).tokenMismatch = true) := by
  refine ⟨?_, ?_, by simp [validateContractIsUSDT, validateUSDTTransaction]⟩
  · intro h
    simp [validateContractIsUSDT, validateUSDTTransaction, isUSDTContract, h]
  · intro h
    simp [validateContractIsUSDT, validateUSDTTransaction, isUSDTContract, h]

/-- C8 witness: the expected token's own address with resolvable metadata is
valid; a different address with resolvable metadata is invalid with a
mismatch. -/
theorem validateContractIsUSDT_spec_witness :
    ((validateContractIsUSDT USDT_CONTRACT (some ("USDT", 18))).isValid = true ∧
      (validateContractIsUSDT USDT_CONTRACT (some ("USDT", 18))).tokenMismatch = false) ∧
    ((validateContractIsUSDT "0x0000000000000000000000000000000000000000"
        (some ("WETH", 18))).isValid = false ∧
      (validateContractIsUSDT "0x0000000000000000000000000000000000000000"
        (some ("WETH", 18))).tokenMismatch = true) :=
  ⟨(validateContractIsUSDT_spec USDT_CONTRACT ("USDT", 18)).1 rfl,
   (validateContractIsUSDT_spec "0x0000000000000000000000000000000000000000"
      ("WETH", 18)).2.1 (by decide)⟩

set_option maxRecDepth 20000

section PoolLemmas

lemma snd_mem_of_mem_enum {p : Nat × RPCEndpoint} {es : List RPCEndpoint}
    (hp : p ∈ es.enum) : p.2 ∈ es := by
  obtain ⟨i, e⟩ := p
  have h := List.mk_mem_enum_iff_getElem?.mp hp
  exact List.mem_iff_getElem?.mpr ⟨i, h⟩

lemma mem_enum_of_mem {e : RPCEndpoint} {es : List RPCEndpoint} (he : e ∈ es) :
    ∃ i, (i, e) ∈ es.enum := by
  obtain ⟨i, hi⟩ := List.mem_iff_getElem?.mp he
  exact ⟨i, List.mk_mem_enum_iff_getElem?.mpr hi⟩

lemma mem_getHealthy_of_healthy {e : RPCEndpoint} {es : List RPCEndpoint}
    (he : e ∈ es) (hh : e.isHealthy = true) :
    ∃ i, (i, e) ∈ getHealthyEndpointsIdx es := by
  obtain ⟨i, hi⟩ := mem_enum_of_mem he
  refine ⟨i, ?_⟩
  unfold getHealthyEndpointsIdx
  exact (List.mem_insertionSort latLE).mpr (List.mem_filter.mpr ⟨hi, by simpa⟩)

lemma healthy_of_mem_getHealthy {p : Nat × RPCEndpoint} {es : List RPCEndpoint}
    (hp : p ∈ getHealthyEndpointsIdx es) : p.2.isHealthy = true ∧ p.2 ∈ es := by
  have h2 := (List.mem_insertionSort latLE).mp hp
  obtain ⟨hmem, hpred⟩ := List.mem_filter.mp h2
  exact ⟨by simpa using hpred, snd_mem_of_mem_enum hmem⟩

lemma getHealthy_sorted (es : List RPCEndpoint) :
    (getHealthyEndpointsIdx es).Pairwise latLE :=
  List.sorted_insertionSort latLE (es.enum.filter (fun p => p.2.isHealthy))

lemma getHealthy_eq_nil_iff (es : List RPCEndpoint) :
    getHealthyEndpointsIdx es = [] ↔ ∀ e ∈ es, e.isHealthy = false := by
  constructor
  · intro h e he
    by_contra hh
    have hh2 : e.isHealthy = true := by
      cases hb : e.isHealthy
      · exact absurd hb hh
      · rfl
    obtain ⟨i, hi⟩ := mem_getHealthy_of_healthy he hh2
    rw [h] at hi
    exact absurd hi (List.not_mem_nil _)
  · intro hall
    apply List.eq_nil_iff_forall_not_mem.mpr
    intro p hp
    obtain ⟨hph, hpe⟩ := healthy_of_mem_getHealthy hp
    rw [hall p.2 hpe] at hph
    exact Bool.false_ne_true hph

lemma getHealthy_head_min {es : List RPCEndpoint} {p : Nat × RPCEndpoint}
    {rest : List (Nat × RPCEndpoint)} (hcons : getHealthyEndpointsIdx es = p :: rest) :
    ∀ e ∈ es, e.isHealthy = true → p.2.latency ≤ e.latency := by
  intro e he hh
  obtain ⟨i, hi⟩ := mem_getHealthy_of_healthy he hh
  rw [hcons] at hi
  rcases List.mem_cons.mp hi with h | h
  · rw [← h]
  · have hs := getHealthy_sorted es
    rw [hcons] at hs
    exact List.rel_of_sorted_cons hs (i, e) h

end PoolLemmas

/-- C2: `getBestProvider` returns the lowest-latency endpoint among the
healthy ones and never an unhealthy endpoint while at least one is healthy;
when no endpoint is healthy it first resets every endpoint's failure count
to 0 and health to true and then returns the first configured endpoint
(after the reset). -/
theorem getBestProvider_spec (es : List RPCEndpoint) :
    ((∃ e ∈ es, e.isHealthy = true) →
      (getBestProvider es).2 = es ∧
      ∃ b, (getBestProvider es).1 = some b ∧ b.isHealthy = true ∧ b ∈ es ∧
        ∀ e ∈ es, e.isHealthy = true → b.latency ≤ e.latency) ∧
    ((∀ e ∈ es, e.isHealthy = false) →
      (getBestProvider es).2 = es.map resetEndpoint ∧
      (∀ x ∈ (getBestProvider es).2, x.failureCount = 0 ∧ x.isHealthy = true) ∧
      (getBestProvider es).1 = (es.map resetEndpoint).head? ∧
      ∀ e0, es.head? = some e0 → (getBestProvider es).1 = some (resetEndpoint e0)) := by
  constructor
  · rintro ⟨e, he, hh⟩
    have hne : getHealthyEndpointsIdx es ≠ [] := by
      rw [Ne, getHealthy_eq_nil_iff]
      intro hall
      rw [hall e he] at hh
      exact Bool.false_ne_true hh
    obtain ⟨p, rest, hcons⟩ := List.exists_cons_of_ne_nil hne
    have hlen : (getHealthyEndpointsIdx es).length ≠ 0 := by
      rw [hcons]; simp
    unfold getBestProvider
    simp only [if_neg hlen]
    refine ⟨by trivial, p.2, ?_, ?_, ?_, getHealthy_head_min hcons⟩
    · rw [hcons]; rfl
    · exact (healthy_of_mem_getHealthy (hcons ▸ List.mem_cons_self p rest)).1
    · exact (healthy_of_mem_getHealthy (hcons ▸ List.mem_cons_self p rest)).2
  · intro hall
    have hnil : getHealthyEndpointsIdx es = [] := (getHealthy_eq_nil_iff es).mpr hall
    have hgb : getBestProvider es = ((es.map resetEndpoint).head?, es.map resetEndpoint) := by
      simp [getBestProvider, hnil]
    rw [hgb]
    refine ⟨rfl, ?_, rfl, ?_⟩
    · intro x hx
      obtain ⟨y, _, rfl⟩ := List.mem_map.mp hx
      exact ⟨rfl, rfl⟩
    · intro e0 h0
      rw [List.head?_map, h0]
      rfl

/-- C2 witness: on the five-endpoint fixture (all healthy), the pool state is
unchanged and the returned endpoint is healthy, belongs to the pool, and has
minimal latency among the healthy endpoints. -/
theorem getBestProvider_spec_witness :
    (getBestProvider exEndpoints).2 = exEndpoints ∧
    ∃ b, (getBestProvider exEndpoints).1 = some b ∧ b.isHealthy = true ∧
      b ∈ exEndpoints ∧
      ∀ e ∈ exEndpoints, e.isHealthy = true → b.latency ≤ e.latency :=
  (getBestProvider_spec exEndpoints).1 ⟨⟨"rpc1", true, 10, 0, 0⟩, by decide, rfl⟩

/-- C1: `executeWithRetry` selects its candidates as all healthy endpoints
sorted ascending by latency when at least one is healthy, else the first
`maxRetries` configured endpoints in original order; it attempts candidates
in that order for at most `min(candidates.length, maxRetries)` attempts, and
on the first success it resets that endpoint's failure count, marks it
healthy, and returns without attempting further candidates. On the spec's
5-endpoint latency fixture [80, 10, 40, 20, 60] with the first two attempts
failing and the third succeeding, the attempts hit latencies 10, 20, 40 in
order and never the 80- or 60-latency endpoints. -/
theorem executeWithRetry_selection {T : Type} (fn : Nat → Except String T)
    (maxRetries : Int) (es : List RPCEndpoint) :
    ((∃ e ∈ es, e.isHealthy = true) →
      candidatesIdx es maxRetries = (getHealthyEndpointsIdx es).map Prod.fst) ∧
    ((∀ e ∈ es, e.isHealthy = false) →
      candidatesIdx es maxRetries =
        (List.range es.length).take (jsSliceTo es.length maxRetries)) ∧
    (getHealthyEndpointsIdx es).Pairwise latLE ∧
    (∀ p ∈ getHealthyEndpointsIdx es, p.2.isHealthy = true) ∧
    (executeWithRetry fn maxRetries es).attempted <+:
      (candidatesIdx es maxRetries).take
        (numAttempts (candidatesIdx es maxRetries).length maxRetries) ∧
    (0 ≤ maxRetries →
      ((executeWithRetry fn maxRetries es).attempted.length : Int) ≤
        min ((candidatesIdx es maxRetries).length : Int) maxRetries) ∧
    ((∀ j ∈ candidatesIdx es maxRetries, j < es.length) →
      ∀ v, (executeWithRetry fn maxRetries es).result = Except.ok v →
        ∃ pre i, (executeWithRetry fn maxRetries es).attempted = pre ++ [i] ∧
          fn i = Except.ok v ∧ (∀ j ∈ pre, ∃ m, fn j = Except.error m) ∧
          ∃ e, (executeWithRetry fn maxRetries es).endpoints[i]? = some e ∧
            e.failureCount = 0 ∧ e.isHealthy = true) ∧
    (executeWithRetry exFn 3 exEndpoints).attempted = [1, 3, 2] ∧
    (executeWithRetry exFn 3 exEndpoints).result = Except.ok 42 ∧
    ((executeWithRetry exFn 3 exEndpoints).attempted.map
        (fun i => (exEndpoints.map RPCEndpoint.latency)[i]?)) =
      [some 10, some 20, some 40] ∧
    0 ∉ (executeWithRetry exFn 3 exEndpoints).attempted ∧
    4 ∉ (executeWithRetry exFn 3 exEndpoints).attempted := by
  have hprefix := attemptLoop_attempted_prefix fn
    ((candidatesIdx es maxRetries).take
      (numAttempts (candidatesIdx es maxRetries).length maxRetries)) es none
  refine ⟨?_, ?_, getHealthy_sorted es, fun p hp => (healthy_of_mem_getHealthy hp).1,
    hprefix, ?_, ?_, by decide, rfl, by decide, by decide, by decide⟩
  · rintro ⟨e, he, hh⟩
    have hne : getHealthyEndpointsIdx es ≠ [] := by
      rw [Ne, getHealthy_eq_nil_iff]
      intro hall
      rw [hall e he] at hh
      exact Bool.false_ne_true hh
    have hlen : 0 < (getHealthyEndpointsIdx es).length := List.length_pos.mpr hne
    simp [candidatesIdx, hlen]
  · intro hall
    have hnil : getHealthyEndpointsIdx es = [] := (getHealthy_eq_nil_iff es).mpr hall
    simp [candidatesIdx, hnil]
  · intro h0
    have h1 : (executeWithRetry fn maxRetries es).attempted.length ≤
        numAttempts (candidatesIdx es maxRetries).length maxRetries := by
      refine le_trans hprefix.length_le ?_
      rw [List.length_take]
      exact min_le_left _ _
    have h2 : numAttempts (candidatesIdx es maxRetries).length maxRetries ≤
        min (candidatesIdx es maxRetries).length maxRetries.toNat := by
      unfold numAttempts
      split
      · omega
      · exact le_refl _
    omega
  · intro hbound v hres
    exact attemptLoop_ok_spec fn _ es none v
      (fun j hj => hbound j (List.mem_of_mem_take hj)) hres

/-- C1 witness: on the latency fixture with the failing-twice operation, the
general theorem instantiates to a concrete successful run: the attempts end
at index 2 (latency 40), every earlier attempt failed, and the succeeding
endpoint ends with zero failures and healthy. -/
theorem executeWithRetry_selection_witness :
    ∃ pre i, (executeWithRetry exFn 3 exEndpoints).attempted = pre ++ [i] ∧
      exFn i = Except.ok 42 ∧ (∀ j ∈ pre, ∃ m, exFn j = Except.error m) ∧
      ∃ e, (executeWithRetry exFn 3 exEndpoints).endpoints[i]? = some e ∧
        e.failureCount = 0 ∧ e.isHealthy = true :=
  (executeWithRetry_selection exFn 3 exEndpoints).2.2.2.2.2.2.1 (by decide) 42 rfl

section InvariantLemmas

lemma inv_markSuccess (e : RPCEndpoint) : endpointInv (markSuccess e) := rfl

lemma inv_markFailure (e : RPCEndpoint) : endpointInv (markFailure e) := rfl

lemma updIdx_inv {es : List RPCEndpoint} {i : Nat} {f : RPCEndpoint → RPCEndpoint}
    (h : ∀ x ∈ es, endpointInv x) (hf : ∀ x, endpointInv (f x)) :
    ∀ x ∈ updIdx es i f, endpointInv x := by
  intro x hx
  rcases mem_updIdx es i f hx with h2 | ⟨y, _, rfl⟩
  · exact h x h2
  · exact hf y

lemma attemptLoop_inv {T : Type} (fn : Nat → Except String T) :
    ∀ (l : List Nat) (es : List RPCEndpoint) (err : Option String),
      (∀ x ∈ es, endpointInv x) →
      ∀ x ∈ (attemptLoop fn l es err).endpoints, endpointInv x := by
  intro l
  induction l with
  | nil => intro es err h x hx; exact h x hx
  | cons i rest ih =>
    intro es err h x hx
    unfold attemptLoop at hx
    cases hfn : fn i with
    | ok v =>
      rw [hfn] at hx
      exact updIdx_inv h inv_markSuccess x hx
    | error msg =>
      rw [hfn] at hx
      exact ih (updIdx es i markFailure) (some msg)
        (updIdx_inv h inv_markFailure) x hx

end InvariantLemmas

/-- C3: the invariant `healthy == (consecutiveFailures < maxFailures)` holds
after every state change of every pool operation — construction, health
probe success and failure, `executeWithRetry` success and failure, and the
all-unhealthy reset of `getBestProvider` — and, starting from a fresh
endpoint, after exactly `maxFailures` (3) consecutive failures `healthy`
becomes false while the next success resets the failure count to 0 and
`healthy` to true. -/
theorem healthInvariant_spec (e : RPCEndpoint) (url : String)
    (lat now n1 n2 n3 : Nat) :
    endpointInv (mkEndpoint url now) ∧
    endpointInv (healthSuccess e lat now) ∧
    endpointInv (healthFailure e now) ∧
    endpointInv (markSuccess e) ∧
    endpointInv (markFailure e) ∧
    endpointInv (resetEndpoint e) ∧
    (∀ (urls : List String) (now2 : Nat),
      ∀ x ∈ initializeEndpoints urls now2, endpointInv x) ∧
    (∀ es : List RPCEndpoint, (∀ x ∈ es, endpointInv x) →
      ∀ x ∈ (getBestProvider es).2, endpointInv x) ∧
    (∀ (T : Type) (fn : Nat → Except String T) (mr : Int) (es : List RPCEndpoint),
      (∀ x ∈ es, endpointInv x) →
      ∀ x ∈ (executeWithRetry fn mr es).endpoints, endpointInv x) ∧
    (e.failureCount = 0 →
      (healthFailure (healthFailure e n1) n2).isHealthy = true ∧
      (healthFailure (healthFailure (healthFailure e n1) n2) n3).isHealthy = false) ∧
    (healthSuccess (healthFailure (healthFailure (healthFailure e n1) n2) n3)
        lat now).failureCount = 0 ∧
    (healthSuccess (healthFailure (healthFailure (healthFailure e n1) n2) n3)
        lat now).isHealthy = true := by
  refine ⟨rfl, rfl, rfl, rfl, rfl, rfl, ?_, ?_, ?_, ?_, rfl, rfl⟩
  · intro urls now2 x hx
    obtain ⟨u, _, rfl⟩ := List.mem_map.mp hx
    rfl
  · intro es h x hx
    by_cases hlen : (getHealthyEndpointsIdx es).length = 0
    · have hgb : (getBestProvider es).2 = es.map resetEndpoint := by
        simp [getBestProvider, hlen]
      rw [hgb] at hx
      obtain ⟨y, _, rfl⟩ := List.mem_map.mp hx
      rfl
    · have hgb : (getBestProvider es).2 = es := by
        unfold getBestProvider
        simp only [if_neg hlen]
      rw [hgb] at hx
      exact h x hx
  · intro T fn mr es h x hx
    exact attemptLoop_inv fn _ es none h x hx
  · intro h0
    constructor <;> simp [healthFailure, h0, maxFailures]

/-- C3 witness: a freshly constructed endpoint stays healthy after two
consecutive probe failures and flips to unhealthy on the third. -/
theorem healthInvariant_spec_witness :
    (healthFailure (healthFailure (mkEndpoint "rpc" 0) 1) 2).isHealthy = true ∧
    (healthFailure (healthFailure (healthFailure (mkEndpoint "rpc" 0) 1) 2)
        3).isHealthy = false :=
  (healthInvariant_spec (mkEndpoint "rpc" 0) "rpc" 5 6 1 2 3).2.2.2.2.2.2.2.2.2.1 rfl

/-- C5 counterexample: a log that matches the transfer signature but is
malformed (wrong topic count) decodes to `none`, exactly the same outcome as
a log whose primary topic is not the signature — the decoder does not report
a decode error distinct from "no transfer event" (the caught error is only
logged to the console). -/
theorem parseTransferLog_error_not_distinct :
    parseTransferLog exLogMalformed = none ∧
    parseTransferLog exLogNoMatch = none ∧
    parseTransferLog exLogMalformed = parseTransferLog exLogNoMatch := by
  refine ⟨by decide, by decide, by decide⟩

/-- C5 amended: a log whose primary topic is not the transfer signature
yields `none`, and a signature-matching log that is malformed in any of the
ways the decode can fail — wrong topic count, a topic whose low 20 bytes are
not a well-formed address (the `getAddress` call throws), or unparseable
data (the `BigInt` conversion throws) — also yields `none`; the two outcomes
are equal, so the caller cannot distinguish a decode failure from the
absence of a transfer event. -/
theorem parseTransferLog_amended (l1 l2 : Log)
    (h1 : l1.topics.head? ≠ some TRANSFER_EVENT_SIG_HASH)
    (h2 : l2.topics.head? = some TRANSFER_EVENT_SIG_HASH)
    (h3 : l2.topics.length < 3 ∨
      (∃ t1, l2.topics[1]? = some t1 ∧ getAddress? ("0x" ++ strDrop t1 26) = none) ∨
      (∃ t2, l2.topics[2]? = some t2 ∧ getAddress? ("0x" ++ strDrop t2 26) = none) ∨
      jsBigIntOfString l2.data = none) :
    parseTransferLog l1 = none ∧ parseTransferLog l2 = none ∧
    parseTransferLog l1 = parseTransferLog l2 := by
  have e1 : parseTransferLog l1 = none := by
    unfold parseTransferLog
    rw [if_pos h1]
  have e2 : parseTransferLog l2 = none := by
    unfold parseTransferLog
    rw [if_neg (by simp [h2])]
    rcases ht1 : l2.topics[1]? with _ | t1
    · rfl
    rcases ht2 : l2.topics[2]? with _ | t2
    · rfl
    rcases ha1 : getAddress? ("0x" ++ strDrop t1 26) with _ | a1
    · simp [ha1]
    rcases ha2 : getAddress? ("0x" ++ strDrop t2 26) with _ | a2
    · simp [ha1, ha2]
    rcases hd : jsBigIntOfString l2.data with _ | v
    · simp [ha1, ha2, hd]
    exfalso
    rcases h3 with hlen | ⟨u1, hu1, hbad1⟩ | ⟨u2, hu2, hbad2⟩ | hdata
    · obtain ⟨hlt, _⟩ := List.getElem?_eq_some_iff.mp ht2
      omega
    · rw [ht1] at hu1
      obtain rfl : u1 = t1 := (Option.some.inj hu1).symm
      rw [hbad1] at ha1
      exact Option.noConfusion ha1
    · rw [ht2] at hu2
      obtain rfl : u2 = t2 := (Option.some.inj hu2).symm
      rw [hbad2] at ha2
      exact Option.noConfusion ha2
    · rw [hdata] at hd
      exact Option.noConfusion hd
  exact ⟨e1, e2, by rw [e1, e2]⟩

/-- C5 amended witness: against the sample non-matching log, both a
signature-matching log with a wrong topic count and a signature-matching log
with well-formed topics but unparseable data (`0x`) decode to `none`. -/
theorem parseTransferLog_amended_witness :
    (parseTransferLog exLogNoMatch = none ∧ parseTransferLog exLogMalformed = none ∧
      parseTransferLog exLogNoMatch = parseTransferLog exLogMalformed) ∧
    (parseTransferLog exLogNoMatch = none ∧ parseTransferLog exLogBadData = none ∧
      parseTransferLog exLogNoMatch = parseTransferLog exLogBadData) :=
  ⟨parseTransferLog_amended exLogNoMatch exLogMalformed (by decide) (by decide)
      (Or.inl (by decide)),
   parseTransferLog_amended exLogNoMatch exLogBadData (by decide) (by decide)
      (Or.inr (Or.inr (Or.inr (by decide))))⟩

/-- C6 counterexample: with a receipt whose first signature-matching log is
malformed and whose second signature-matching log is decodable, the code
produces no override at all (it only parses the first match), while the
claimed rule — take the first log that both matches and decodes — produces
the decoded second log. -/
theorem transferOverride_not_first_decodable :
    transferOverride [exLogMalformed, exLogGood] = none ∧
    specFirstDecodableTransfer [exLogMalformed, exLogGood] =
      some ⟨"0xaaaaaaaaaaaaaaaaaaaaaaaaaaaaaaaaaaaaaaaa",
            "0xbbbbbbbbbbbbbbbbbbbbbbbbbbbbbbbbbbbbbbbb", 10 ^ 18⟩ := by
  refine ⟨by decide, by decide⟩

/-- C6 amended: the sender/receiver override is taken from the first
signature-matching log only — if that log decodes, its event is the
override; if it fails to decode, no override occurs even when a later log is
decodable; and with no signature-matching log there is no override. -/
theorem transferOverride_first_match_only (logs : List Log) :
    (∀ lg, findTransferLog logs = some lg →
      transferOverride logs = parseTransferLog lg) ∧
    (findTransferLog logs = none → transferOverride logs = none) ∧
    (transferOverride [exLogMalformed, exLogGood] = none ∧
      parseTransferLog exLogGood ≠ none) := by
  refine ⟨?_, ?_, by decide, by decide⟩
  · intro lg h
    simp [transferOverride, h]
  · intro h
    simp [transferOverride, h]

/-- C6 amended witness: on a receipt holding only the decodable log, the
override is that log's decoded event. -/
theorem transferOverride_first_match_only_witness :
    transferOverride [exLogGood] = parseTransferLog exLogGood :=
  (transferOverride_first_match_only [exLogGood]).1 exLogGood (by decide)

section DoubleLemmas

lemma rnte_intCast (m : Int) : rnte ((m : ℚ)) = m := by
  unfold rnte
  rw [Int.floor_intCast, sub_self]
  norm_num

lemma roundDouble_of_eq_int_mul {q : ℚ} (hq : q ≠ 0) (m : Int)
    (hm : q = (m : ℚ) * 2 ^ (Int.log 2 |q| - 52)) : roundDouble q = q := by
  unfold roundDouble
  rw [if_neg hq]
  set e : Int := Int.log 2 |q| - 52 with he
  have h2 : ((2 : ℚ) ^ e) ≠ 0 := zpow_ne_zero _ two_ne_zero
  have hdiv : q / 2 ^ e = (m : ℚ) := by
    rw [hm, mul_div_assoc, div_self h2, mul_one]
  rw [hdiv, rnte_intCast, ← hm]

/-- A natural number whose significant bits fit in 53 binary digits (after
discarding `k` trailing zero bits) is an exact binary64 value. -/
lemma roundDouble_natCast (n k : Nat) (hlt : n < 2 ^ (53 + k)) (hdvd : 2 ^ k ∣ n) :
    roundDouble (n : ℚ) = n := by
  rcases Nat.eq_zero_or_pos n with rfl | hn
  · rw [Nat.cast_zero]
    rw [roundDouble, if_pos rfl]
  have hq0 : ((n : ℚ)) ≠ 0 := by positivity
  have habs : |((n : ℚ))| = (n : ℚ) := abs_of_nonneg (by positivity)
  have hlogq : Int.log 2 |((n : ℚ))| = Nat.log 2 n := by
    rw [habs, Int.log_natCast]
  have hLlt : Nat.log 2 n < 53 + k :=
    Nat.log_lt_of_lt_pow (Nat.pos_iff_ne_zero.mp hn) hlt
  set L := Nat.log 2 n with hLdef
  by_cases hcase : 52 ≤ L
  · have hdvd2 : 2 ^ (L - 52) ∣ n :=
      dvd_trans (pow_dvd_pow 2 (by omega)) hdvd
    obtain ⟨c, hc⟩ := hdvd2
    apply roundDouble_of_eq_int_mul hq0 (c : Int)
    rw [hlogq]
    have he : (L : Int) - 52 = ((L - 52 : Nat) : Int) := by omega
    rw [he, zpow_natCast, hc]
    push_cast
    ring
  · apply roundDouble_of_eq_int_mul hq0 ((n * 2 ^ (52 - L) : Nat) : Int)
    rw [hlogq]
    have he : (L : Int) - 52 = -((52 - L : Nat) : Int) := by omega
    rw [he, zpow_neg, zpow_natCast]
    push_cast
    have h2 : ((2 : ℚ) ^ (52 - L)) ≠ 0 := by positivity
    field_simp

lemma roundDouble_one : roundDouble (1 : ℚ) = 1 := by
  have h := roundDouble_natCast 1 0 (by norm_num) (one_dvd 1)
  simpa using h

lemma natLog2_1e18 : Nat.log 2 (10 ^ 18) = 59 :=
  Nat.log_eq_of_pow_le_of_lt_pow (by norm_num) (by norm_num)

lemma natLog2_1e18p1 : Nat.log 2 (10 ^ 18 + 1) = 59 :=
  Nat.log_eq_of_pow_le_of_lt_pow (by norm_num) (by norm_num)

lemma roundDouble_1e18 : roundDouble ((10 ^ 18 : Nat) : ℚ) = ((10 ^ 18 : Nat) : ℚ) :=
  roundDouble_natCast (10 ^ 18) 18 (by norm_num) ⟨5 ^ 18, by norm_num⟩

/-- The value 10^18 + 1 needs 60 significant bits, so binary64 rounds it down to
10^18 (the spacing of binary64 values near 10^18 is 2^7 = 128). -/
lemma roundDouble_1e18p1 :
    roundDouble ((10 ^ 18 + 1 : Nat) : ℚ) = ((10 ^ 18 : Nat) : ℚ) := by
  have hq0 : ((10 ^ 18 + 1 : Nat) : ℚ) ≠ 0 := by positivity
  unfold roundDouble
  rw [if_neg hq0]
  have habs : |((10 ^ 18 + 1 : Nat) : ℚ)| = ((10 ^ 18 + 1 : Nat) : ℚ) :=
    abs_of_nonneg (by positivity)
  rw [habs, Int.log_natCast, natLog2_1e18p1]
  rw [show ((59 : Nat) : Int) - 52 = ((7 : Nat) : Int) from by norm_num, zpow_natCast]
  have hdiv : ((10 ^ 18 + 1 : Nat) : ℚ) / 2 ^ (7 : Nat) = 7812500000000000 + 1 / 128 := by
    push_cast
    norm_num
  rw [hdiv]
  have hfl : ⌊(7812500000000000 + 1 / 128 : ℚ)⌋ = 7812500000000000 := by
    rw [Int.floor_eq_iff]
    constructor <;> norm_num
  have hrnte : rnte (7812500000000000 + 1 / 128 : ℚ) = 7812500000000000 := by
    unfold rnte
    rw [hfl]
    norm_num
  rw [hrnte]
  push_cast
  norm_num

end DoubleLemmas

/-- C4 counterexample: for a transfer of raw value 10^18 + 1 with known
symbol and 18 decimals, the code reports amount exactly 1 (the raw value is
rounded to binary64 before dividing, and 10^18 + 1 rounds to 10^18), while
the exact quotient (10^18 + 1) / 10^18 is not 1 — so the reported amount
does not equal the raw value divided exactly by 10^decimals for every raw
value. -/
theorem computeAmount_float_counterexample :
    computeAmount (some "USDT") (some 18) (10 ^ 18 + 1) = 1 ∧
    ((10 ^ 18 + 1 : Nat) : ℚ) / 10 ^ 18 ≠ 1 := by
  constructor
  · unfold computeAmount
    have ht : (truthyStr (some "USDT") && truthyNat (some 18)) = true := rfl
    rw [if_pos ht]
    show jsDivD (jsNumber (10 ^ 18 + 1)) (jsNumber (10 ^ 18)) = 1
    unfold jsNumber jsDivD
    rw [roundDouble_1e18p1, roundDouble_1e18, div_self (by positivity), roundDouble_one]
  · intro h
    rw [div_eq_one_iff_eq (by positivity)] at h
    push_cast at h
    norm_num at h

/-- C4 amended: when decimals are unknown, or 0 (falsy in the code's truthy
check), or the symbol is unknown or empty, the raw magnitude is reported
unscaled (exactly); when symbol and decimals are both truthy the amount is
the binary64 quotient of the binary64 roundings of the raw value and of
10^decimals — which equals the exact quotient whenever `10 ^ decimals`
divides the raw value, `raw < 2 ^ 53` and `decimals ≤ 15`, and in
particular raw value 10^18 with 18 decimals yields exactly 1. -/
theorem computeAmount_amended (raw d : Nat) (sym : String) :
    computeAmount none (some d) raw = (raw : ℚ) ∧
    computeAmount (some sym) none raw = (raw : ℚ) ∧
    computeAmount (some sym) (some 0) raw = (raw : ℚ) ∧
    computeAmount (some "") (some d) raw = (raw : ℚ) ∧
    (sym ≠ "" → d ≠ 0 → computeAmount (some sym) (some d) raw =
      jsDivD (jsNumber raw) (jsNumber (10 ^ d))) ∧
    (sym ≠ "" → d ≠ 0 → d ≤ 15 → raw < 2 ^ 53 → 10 ^ d ∣ raw →
      computeAmount (some sym) (some d) raw = (raw : ℚ) / 10 ^ d) ∧
    computeAmount (some "USDT") (some 18) (10 ^ 18) = 1 := by
  have hbranch : ∀ h1 : sym ≠ "", ∀ h2 : d ≠ 0,
      computeAmount (some sym) (some d) raw =
        jsDivD (jsNumber raw) (jsNumber (10 ^ d)) := by
    intro h1 h2
    unfold computeAmount
    rw [if_pos]
    · rfl
    · simp [truthyStr, truthyNat, h1, h2]
  refine ⟨rfl, by simp [computeAmount, truthyNat], by simp [computeAmount, truthyNat],
    by simp [computeAmount, truthyStr], hbranch, ?_, ?_⟩
  · intro h1 h2 h3 h4 h5
    rw [hbranch h1 h2]
    obtain ⟨c, hc⟩ := h5
    have hraw : jsNumber raw = (raw : ℚ) :=
      roundDouble_natCast raw 0 (by simpa using h4) (one_dvd raw)
    have hpow : jsNumber (10 ^ d) = ((10 ^ d : Nat) : ℚ) := by
      apply roundDouble_natCast (10 ^ d) 0 ?_ (one_dvd _)
      calc 10 ^ d ≤ 10 ^ 15 := Nat.pow_le_pow_right (by norm_num) h3
        _ < 2 ^ (53 + 0) := by norm_num
    have hclt : c < 2 ^ 53 := by
      have hcle : c ≤ raw := by
        rw [hc]
        exact Nat.le_mul_of_pos_left c (Nat.pos_pow_of_pos d (by norm_num))
      omega
    have hcdiv : (raw : ℚ) / ((10 ^ d : Nat) : ℚ) = (c : ℚ) := by
      rw [hc]
      push_cast
      rw [mul_comm, mul_div_assoc, div_self (by positivity), mul_one]
    unfold jsDivD
    rw [hraw, hpow]
    have hc2 : roundDouble ((c : ℚ)) = (c : ℚ) :=
      roundDouble_natCast c 0 (by simpa using hclt) (one_dvd c)
    rw [hcdiv, hc2, ← hcdiv]
    push_cast
    ring
  · unfold computeAmount
    have ht : (truthyStr (some "USDT") && truthyNat (some 18)) = true := rfl
    rw [if_pos ht]
    show jsDivD (jsNumber (10 ^ 18)) (jsNumber (10 ^ 18)) = 1
    unfold jsNumber jsDivD
    rw [roundDouble_1e18, div_self (by positivity), roundDouble_one]

/-- C4 amended witness: a raw value of 1500000 with 5 known decimals and a
known symbol is reported as exactly 1500000 / 10^5 = 15. -/
theorem computeAmount_amended_witness :
    computeAmount (some "USDT") (some 5) 1500000 = (1500000 : ℚ) / 10 ^ 5 :=
  (computeAmount_amended 1500000 5 "USDT").2.2.2.2.2.1
    (by decide) (by decide) (by norm_num) (by norm_num) ⟨15, by norm_num⟩

end Web3Verify
